import Mathlib

/-!
Verification development for the gpsd RTCM-104 decoder core
(`rtcm.h`: word layouts, scale constants, synchronizer/assembler context)
and the AIS JSON dispatcher (`ais_json.c`).

RTCM words are 30-bit quantities, low-end justified: the low 6 bits of a
word are its parity field, and bit-fields are laid out from the least
significant bit upward in declaration order, per the header's comment
("low-end justified" chunks whose low 6 bits are parity).
-/

namespace Rtcm

/-! ## Scale constants (from rtcm.h lines 17-30), embedded exactly as the
decimal literals in the source, as rationals. -/

def ZCOUNT_SCALE : ℚ := 0.6
def PCSMALL : ℚ := 0.02
def PCLARGE : ℚ := 0.32
def RRSMALL : ℚ := 0.002
def RRLARGE : ℚ := 0.032
def XYZ_SCALE : ℚ := 0.01
def DXYZ_SCALE : ℚ := 0.1
def LA_SCALE : ℚ := 90.0 / 32767.0
def LO_SCALE : ℚ := 180.0 / 32767.0
def FREQ_SCALE : ℚ := 0.1
def FREQ_OFFSET : ℚ := 190.0
def CNR_OFFSET : ℚ := 24
def TU_SCALE : ℚ := 5

/-- The fixed preamble pattern of header word 1 (rtcm.h line 36:
`preamble:8; fixed at 01100110`). -/
def PREAMBLE_PATTERN : Nat := 0x66

/-- Maximum words in one RTCM message: 2 header + 31 payload
(rtcm.h line 135, `RTCM_WORDS_MAX`). -/
def RTCM_WORDS_MAX : Nat := 33

/-! ## Word field extraction.

Each struct in rtcm.h overlays a 30-bit word with bit-fields, declared
from the least significant bit upward.  We replace the overlays with
explicit shift/mask extraction functions, one per field, at the offsets
the declaration order dictates. -/

/-- Sign extension of a `bits`-wide unsigned field value to an integer,
as reading a signed C bit-field does. -/
def signExt (bits : Nat) (v : Nat) : Int :=
  if v < 2 ^ (bits - 1) then (v : Int) else (v : Int) - 2 ^ bits

/-- Low 6 bits of every word: the parity field. -/
def parityOf (w : Nat) : Nat := w &&& 0x3f

/-- Header word 1 (`rtcm_msghw1`): parity:6, refstaid:10, msgtype:6,
preamble:8. -/
def refstaidOf (w : Nat) : Nat := (w >>> 6) &&& 0x3ff

def msgtypeOf (w : Nat) : Nat := (w >>> 16) &&& 0x3f

def preambleOf (w : Nat) : Nat := (w >>> 22) &&& 0xff

/-- Header word 2 (`rtcm_msghw2`): parity:6, stathlth:3, frmlen:5,
sqnum:3, zcnt:13. -/
def stathlthOf (w : Nat) : Nat := (w >>> 6) &&& 0x7

def frmlenOf (w : Nat) : Nat := (w >>> 9) &&& 0x1f

def sqnumOf (w : Nat) : Nat := (w >>> 14) &&& 0x7

def zcntOf (w : Nat) : Nat := (w >>> 17) &&& 0x1fff

/-- Message 1 word 3 (`rtcm_msg1w3`): parity:6, pc1:16 (signed),
satident1:5, udre1:2, scale1:1. -/
def pc1Of (w : Nat) : Int := signExt 16 ((w >>> 6) &&& 0xffff)

def satident1Of (w : Nat) : Nat := (w >>> 22) &&& 0x1f

def udre1Of (w : Nat) : Nat := (w >>> 27) &&& 0x3

def scale1Of (w : Nat) : Nat := (w >>> 29) &&& 0x1

/-- Message 1 word 4 (`rtcm_msg1w4`): parity:6, satident2:5, udre2:2,
scale2:1, issuedata1:8, rangerate1:8 (signed). -/
def satident2Of (w : Nat) : Nat := (w >>> 6) &&& 0x1f

def udre2Of (w : Nat) : Nat := (w >>> 11) &&& 0x3

def scale2Of (w : Nat) : Nat := (w >>> 13) &&& 0x1

def issuedata1Of (w : Nat) : Nat := (w >>> 14) &&& 0xff

def rangerate1Of (w : Nat) : Int := signExt 8 ((w >>> 22) &&& 0xff)

/-- Message 1 word 5 (`rtcm_msg1w5`): parity:6, rangerate2:8 (signed),
pc2:16 (signed). -/
def rangerate2Of (w : Nat) : Int := signExt 8 ((w >>> 6) &&& 0xff)

def pc2Of (w : Nat) : Int := signExt 16 ((w >>> 14) &&& 0xffff)

/-- Message 1 word 6 (`rtcm_msg1w6`): parity:6, pc3_h:8 (signed),
satident3:5, udre3:2, scale3:1, issuedata2:8.

The declaration order in rtcm.h is parity, pc3_h, satident3, udre3,
scale3, issuedata2, so pc3_h sits at bits 6-13 and issuedata2 at the
top of the 30-bit word. -/
def pc3hOf (w : Nat) : Int := signExt 8 ((w >>> 6) &&& 0xff)

def satident3Of (w : Nat) : Nat := (w >>> 14) &&& 0x1f

def udre3Of (w : Nat) : Nat := (w >>> 19) &&& 0x3

def scale3Of (w : Nat) : Nat := (w >>> 21) &&& 0x1

def issuedata2Of (w : Nat) : Nat := (w >>> 22) &&& 0xff

/-- Message 1 word 7 (`rtcm_msg1w7`): parity:6, issuedata3:8,
rangerate3:8 (signed), pc3_l:8 (unsigned low byte). -/
def issuedata3Of (w : Nat) : Nat := (w >>> 6) &&& 0xff

def rangerate3Of (w : Nat) : Int := signExt 8 ((w >>> 14) &&& 0xff)

def pc3lOf (w : Nat) : Nat := (w >>> 22) &&& 0xff

/-! ## Scaled decoding of type-1 correction fields.

Modelled from the spec: the payload-decoding routine applying the scale
constants (`rtcm_decode`'s payload stage / `rtcm_dump`) is declared in
rtcm.h but its implementation is not among the source files; spec 4.3
fixes its arithmetic: pseudorange correction raw x 0.02 m (scale bit 0)
or x 0.32 m (scale bit 1); range rate raw x 0.002 or x 0.032 m/s,
selected per satellite by that satellite's scale bit; Z-count
raw x 0.6 s. -/

/-- Pseudorange correction scaling: small (0.02 m) or large (0.32 m)
per the scale-select bit. -/
def pcScaled (scale : Nat) (raw : Int) : ℚ :=
  (raw : ℚ) * (if scale = 0 then PCSMALL else PCLARGE)

/-- Range-rate correction scaling: small (0.002 m/s) or large
(0.032 m/s) per the scale-select bit. -/
def rrScaled (scale : Nat) (raw : Int) : ℚ :=
  (raw : ℚ) * (if scale = 0 then RRSMALL else RRLARGE)

/-- Z-count timestamp scaling: raw x 0.6 seconds. -/
def zcountScaled (raw : Nat) : ℚ := (raw : ℚ) * ZCOUNT_SCALE

/-- Decoded pseudorange correction of satellite 1 of a clump: raw value
and scale bit both live in word 3. -/
def decodePc1 (w3 : Nat) : ℚ := pcScaled (scale1Of w3) (pc1Of w3)

/-- Decoded range-rate correction of satellite 1 of a clump: the raw
value lives in word 4, the governing scale bit (satellite 1's) in
word 3. -/
def decodeRr1 (w3 w4 : Nat) : ℚ := rrScaled (scale1Of w3) (rangerate1Of w4)

/-- Decoded Z-count of header word 2, in seconds. -/
def decodeZcount (hw2 : Nat) : ℚ := zcountScaled (zcntOf hw2)

/-! ## Synchronizer / assembler state machine.

Modelled from the spec: `rtcm_init` and `rtcm_decode` are declared in
rtcm.h (lines 150-151) but their implementation is not among the source
files.  The per-bit behaviour is taken from spec 4.1/4.2 and 9: shift
the bit into a 30-bit accumulator; while unlocked, test preamble +
parity after every bit and lock on a match; while locked, count 30 bits
per word, validate parity at each boundary, drop to unlocked on parity
failure, and assemble words into the context buffer until it holds
2 + frame-length words.  The context mirrors `struct rtcm_ctx`
(rtcm.h lines 137-143); the word buffer is a list whose length plays
the role of `bufindex`.  The parity algorithm itself is not re-derived
(spec 3: an invariant of the wire format), so every step function is
parameterized by a parity predicate `parityOk`. -/

/-- The per-stream context, mirroring `struct rtcm_ctx`. -/
structure RtcmCtx where
  locked : Bool
  curr_offset : Nat
  curr_word : Nat
  buf : List Nat
  deriving DecidableEq

/-- Tagged result of one decode step (spec 9: `Incomplete`, `Resyncing`,
`Complete`; the header's `RTCM_NO_SYNC` / `RTCM_SYNC` sentinels). -/
inductive RtcmEvent where
  | incomplete
  | resync
  | complete (msg : List Nat)
  deriving DecidableEq

/-- `rtcm_init`: fresh unlocked context with an empty buffer. -/
def rtcm_init : RtcmCtx := ⟨false, 0, 0, []⟩

/-- Shift one incoming bit into the 30-bit accumulator. -/
def shiftIn (w b : Nat) : Nat := ((w <<< 1) ||| (b % 2)) % 2 ^ 30

/-- Word acceptance while locked (spec 4.1 locked case + 4.2): validate
parity; on failure drop to unlocked with the partial buffer discarded;
on success append the word and complete the message exactly when the
buffer holds 2 + frame-length words (frame length read from header
word 2, the buffer's second word). -/
def acceptWord (parityOk : Nat → Bool) (c : RtcmCtx) (w : Nat) :
    RtcmCtx × RtcmEvent :=
  if parityOk w then
    if 2 ≤ (c.buf ++ [w]).length ∧
        (c.buf ++ [w]).length = 2 + frmlenOf ((c.buf ++ [w]).getD 1 0) then
      (⟨true, 0, w, []⟩, .complete (c.buf ++ [w]))
    else
      (⟨true, 0, w, c.buf ++ [w]⟩, .incomplete)
  else
    (⟨false, 0, w, []⟩, .resync)

/-- One step of `rtcm_decode`: feed a single bit (spec 4.1). -/
def feedBit (parityOk : Nat → Bool) (c : RtcmCtx) (b : Nat) :
    RtcmCtx × RtcmEvent :=
  let w := shiftIn c.curr_word b
  if c.locked then
    if c.curr_offset + 1 < 30 then
      ({ c with curr_word := w, curr_offset := c.curr_offset + 1 },
        .incomplete)
    else
      acceptWord parityOk { c with curr_word := w } w
  else
    if preambleOf w = PREAMBLE_PATTERN ∧ parityOk w = true then
      (⟨true, 0, w, [w]⟩, .incomplete)
    else
      ({ c with curr_word := w }, .incomplete)

/-- Feed a whole bit sequence, keeping only the final context. -/
def feedBits (parityOk : Nat → Bool) (c : RtcmCtx) (bs : List Nat) :
    RtcmCtx :=
  bs.foldl (fun c b => (feedBit parityOk c b).1) c

/-- Feed a sequence of completed words to the assembler, collecting the
event emitted at each word. -/
def feedWords (parityOk : Nat → Bool) (c : RtcmCtx) (ws : List Nat) :
    RtcmCtx × List RtcmEvent :=
  match ws with
  | [] => (c, [])
  | w :: rest =>
      let s := acceptWord parityOk c w
      let t := feedWords parityOk s.1 rest
      (t.1, s.2 :: t.2)

/-- Buffer part of the context invariant: at most 33 buffered words,
and a buffered-but-incomplete message is strictly shorter than its
declared 2 + frame-length size. -/
def BufInv (c : RtcmCtx) : Prop :=
  c.buf.length ≤ RTCM_WORDS_MAX ∧
    (2 ≤ c.buf.length → c.buf.length < 2 + frmlenOf (c.buf.getD 1 0))

/-- The context invariant of spec 3: bit-offset within 0-29 plus the
buffer bound. -/
def CtxInv (c : RtcmCtx) : Prop :=
  c.curr_offset ≤ 29 ∧ BufInv c

/-! ## Payload decoding (type 1) and dispatch.

Modelled from the spec: the payload stage of `rtcm_decode` is not among
the source files.  Spec 4.3: dispatch on the message type from header
word 1; for type 1 (and structurally identical type 9) iterate clumps
of five words, three satellites per clump, with per-satellite scale
selection; for other types inside the protocol's defined range return a
recognized-but-unparsed raw result; fail with an unknown-type error
only outside the defined range.  The `msgtype` field is 6 bits wide
(rtcm.h line 35) and type 0 is not a defined RTCM message, so the
defined range is 1-63. -/

/-- One satellite's decoded correction record (spec 3, type-1 clump). -/
structure Sat1Corr where
  ident : Nat
  udre : Nat
  issuedata : Nat
  pc : ℚ
  rr : ℚ
  deriving DecidableEq

/-- Decode one five-word clump into its three satellite records, per the
`rtcm_msg1w3` .. `rtcm_msg1w7` layouts; satellite 3's pseudorange
correction is split across words 6 (signed high byte) and 7 (unsigned
low byte). -/
def decodeClump (w3 w4 w5 w6 w7 : Nat) : List Sat1Corr :=
  [⟨satident1Of w3, udre1Of w3, issuedata1Of w4,
      pcScaled (scale1Of w3) (pc1Of w3),
      rrScaled (scale1Of w3) (rangerate1Of w4)⟩,
    ⟨satident2Of w4, udre2Of w4, issuedata2Of w6,
      pcScaled (scale2Of w4) (pc2Of w5),
      rrScaled (scale2Of w4) (rangerate2Of w5)⟩,
    ⟨satident3Of w6, udre3Of w6, issuedata3Of w7,
      pcScaled (scale3Of w6) (pc3hOf w6 * 256 + pc3lOf w7),
      rrScaled (scale3Of w6) (rangerate3Of w7)⟩]

/-- Decode a type-1 payload: iterate complete five-word clumps. -/
def decodeMsg1Payload : List Nat → List Sat1Corr
  | w3 :: w4 :: w5 :: w6 :: w7 :: rest =>
      decodeClump w3 w4 w5 w6 w7 ++ decodeMsg1Payload rest
  | _ => []

/-- Result of the payload decoder (spec 4.3 / 9). -/
inductive DecodeResult where
  | msg1 (refstaid zcount : Nat) (sats : List Sat1Corr)
  | raw (msgtype : Nat) (words : List Nat)
  | unknownType
  deriving DecidableEq

/-- Modelled from the spec: the payload dispatch of `rtcm_decode`
(implementation not among the source files).  `words` is the complete
message buffer, header included. -/
def decodePayload (msgtype : Nat) (words : List Nat) : DecodeResult :=
  if msgtype = 1 ∨ msgtype = 9 then
    .msg1 (refstaidOf (words.getD 0 0)) (zcntOf (words.getD 1 0))
      (decodeMsg1Payload (words.drop 2))
  else if 1 ≤ msgtype ∧ msgtype ≤ 63 then
    .raw msgtype words
  else
    .unknownType

end Rtcm

namespace AisJson

/-! ## AIS JSON dispatcher (`ais_json.c`).

`json_ais_read` zeroes the output `struct ais_t`, then scans the input
buffer with `strstr` for `"type":N,` substrings in a fixed if-else
order and hands the buffer to the matching `json_aisN` schema; if no
recognized substring occurs it returns `JSON_ERR_MISC`.  The chain
contains a second, unreachable `"type":18` test (ais_json.c line 102)
whose body would select `json_ais17`. -/

/-- The fields of `struct ais_t` that the dispatcher's common header
writes; `zeroAis` is the state `memset(ais, 0, ...)` produces. -/
structure AisT where
  msgtype : Nat
  repeatInd : Nat
  mmsi : Nat
  deriving DecidableEq

def zeroAis : AisT := ⟨0, 0, 0⟩

/-- `strstr(hay, needle) != NULL`: needle occurs contiguously in hay. -/
def hasSub (needle : List Char) : List Char → Bool
  | [] => needle.isEmpty
  | c :: rest => needle.isPrefixOf (c :: rest) || hasSub needle rest

/-- Does the buffer contain the `"type":N,` substring for type N? -/
def hasType (n : String) (buf : String) : Bool :=
  hasSub ("\"type\":" ++ n ++ ",").data buf.data

/-- One constructor per branch of the if-else chain of `json_ais_read`,
in source order; `b18dup` is the duplicate second `"type":18` branch
(ais_json.c line 102). -/
inductive AisBranch where
  | b1 | b4 | b5 | b6 | b7 | b8 | b9 | b10 | b12 | b14 | b15 | b16
  | b17 | b18 | b18dup | b19 | b20 | b21 | b22 | b24
  deriving DecidableEq

/-- The parser template each branch passes to `json_read_object`. -/
inductive AisSchema where
  | ais1 | ais4 | ais5 | ais6 | ais7 | ais8 | ais9 | ais10 | ais12
  | ais14 | ais15 | ais16 | ais17 | ais18 | ais19 | ais20 | ais21
  | ais22 | ais24
  deriving DecidableEq

def schemaOf : AisBranch → AisSchema
  | .b1 => .ais1
  | .b4 => .ais4
  | .b5 => .ais5
  | .b6 => .ais6
  | .b7 => .ais7
  | .b8 => .ais8
  | .b9 => .ais9
  | .b10 => .ais10
  | .b12 => .ais12
  | .b14 => .ais14
  | .b15 => .ais15
  | .b16 => .ais16
  | .b17 => .ais17
  | .b18 => .ais18
  | .b18dup => .ais17
  | .b19 => .ais19
  | .b20 => .ais20
  | .b21 => .ais21
  | .b22 => .ais22
  | .b24 => .ais24

/-- The tests of the if-else chain of `json_ais_read` (ais_json.c
lines 45-116), in source order, each paired with the branch its body
selects; the 15th entry is the unreachable duplicate `"type":18`
test. -/
def aisChain (buf : String) : List (Bool × AisBranch) :=
  [(hasType "1" buf || hasType "2" buf || hasType "3" buf, .b1),
    (hasType "4" buf || hasType "11" buf, .b4),
    (hasType "5" buf, .b5),
    (hasType "6" buf, .b6),
    (hasType "7" buf || hasType "13" buf, .b7),
    (hasType "8" buf, .b8),
    (hasType "9" buf, .b9),
    (hasType "10" buf, .b10),
    (hasType "12" buf, .b12),
    (hasType "14" buf, .b14),
    (hasType "15" buf, .b15),
    (hasType "16" buf, .b16),
    (hasType "17" buf, .b17),
    (hasType "18" buf, .b18),
    (hasType "18" buf, .b18dup),
    (hasType "19" buf, .b19),
    (hasType "20" buf, .b20),
    (hasType "21" buf, .b21),
    (hasType "22" buf, .b22),
    (hasType "24" buf, .b24)]

/-- Evaluate an if-else chain: the branch of the first test that
holds. -/
def firstMatch : List (Bool × AisBranch) → Option AisBranch
  | [] => none
  | (c, b) :: rest => if c then some b else firstMatch rest

/-- The dispatch of `json_ais_read`: first matching test in source
order, `none` when no test matches. -/
def selectBranch (buf : String) : Option AisBranch :=
  firstMatch (aisChain buf)

/-- The type numbers whose `"type":N,` substrings the chain recognizes:
1-22 and 24, with no test for 23. -/
def aisNeedles : List String :=
  ["1", "2", "3", "4", "11", "5", "6", "7", "13", "8", "9", "10", "12",
    "14", "15", "16", "17", "18", "19", "20", "21", "22", "24"]

/-- Modelled from the spec: `JSON_ERR_MISC` is defined in json.h, which
is not among the source files; only its identity as the no-branch-
matched error status matters here. -/
def JSON_ERR_MISC : Int := 1

/-- `json_ais_read`: zero the output structure, then dispatch on the
first matching `"type":N,` substring.  `readObj` stands for
`json_read_object` with the branch's schema, acting on the zeroed
structure; no branch matching returns `JSON_ERR_MISC` with the
structure still all zero. -/
def json_ais_read (readObj : AisBranch → AisT → Int × AisT)
    (buf : String) : Int × AisT :=
  match selectBranch buf with
  | none => (JSON_ERR_MISC, zeroAis)
  | some b => readObj b zeroAis

end AisJson

namespace Rtcm

/-- C1: the decoder's scale constants are exactly the wire-compatibility
values the spec lists: Z-count 0.6 s, pseudorange correction 0.02 m
(small) and 0.32 m (large), range rate 0.002 m/s (small) and
0.032 m/s (large), position 0.01 m, delta-position 0.1 m, latitude
90/32767 degrees, longitude 180/32767 degrees, frequency scale 0.1 kHz
with 190 kHz offset, carrier-to-noise offset 24 dB, time unit
5 minutes. -/
theorem scale_constants_exact :
    ZCOUNT_SCALE = 3 / 5 ∧ PCSMALL = 1 / 50 ∧ PCLARGE = 8 / 25 ∧
    RRSMALL = 1 / 500 ∧ RRLARGE = 4 / 125 ∧ XYZ_SCALE = 1 / 100 ∧
    DXYZ_SCALE = 1 / 10 ∧ LA_SCALE = 90 / 32767 ∧ LO_SCALE = 180 / 32767 ∧
    FREQ_SCALE = 1 / 10 ∧ FREQ_OFFSET = 190 ∧ CNR_OFFSET = 24 ∧
    TU_SCALE = 5 := by
  refine ⟨?_, ?_, ?_, ?_, ?_, ?_, ?_, ?_, ?_, ?_, ?_, ?_, ?_⟩ <;>
    norm_num [ZCOUNT_SCALE, PCSMALL, PCLARGE, RRSMALL, RRLARGE, XYZ_SCALE,
      DXYZ_SCALE, LA_SCALE, LO_SCALE, FREQ_SCALE, FREQ_OFFSET, CNR_OFFSET,
      TU_SCALE]

/-- C6: the documented scale factors are applied exactly: a small-scale
pseudorange correction with raw value 10 decodes to 0.20 m, a
large-scale range-rate correction with raw value 5 decodes to
0.16 m/s, and a Z-count raw value of 100 decodes to 60.0 seconds —
each checked on a synthetic type-1 word built by placing the raw field
at its bit position. -/
theorem type1_scaling_examples :
    decodePc1 (10 <<< 6) = 20 / 100 ∧
    decodeRr1 (1 <<< 29) (5 <<< 22) = 16 / 100 ∧
    decodeZcount (100 <<< 17) = 60 := by
  have h1 : pc1Of (10 <<< 6) = 10 := by decide
  have h2 : scale1Of (10 <<< 6) = 0 := by decide
  have h3 : scale1Of (1 <<< 29) = 1 := by decide
  have h4 : rangerate1Of (5 <<< 22) = 5 := by decide
  have h5 : zcntOf (100 <<< 17) = 100 := by decide
  refine ⟨?_, ?_, ?_⟩ <;>
    norm_num [decodePc1, decodeRr1, decodeZcount, pcScaled, rrScaled,
      zcountScaled, h1, h2, h3, h4, h5, PCSMALL, RRLARGE, ZCOUNT_SCALE]

end Rtcm

namespace Rtcm

/-- The 5-bit frame-length field never exceeds 31, so no representable
frame length can ask for more than 2 + 31 = 33 words. -/
theorem frmlenOf_le (w : Nat) : frmlenOf w ≤ 31 :=
  Nat.and_le_right

/-- C7: a message whose header word 2 carries frame length 0 is
complete immediately upon accepting the second header word, with an
empty payload: the emitted message is exactly the two header words and
the buffer resets. -/
theorem header_only_completes_immediately (p : Nat → Bool) (c : RtcmCtx)
    (w1 w2 : Nat) (hbuf : c.buf = [w1]) (hp : p w2 = true)
    (hf : frmlenOf w2 = 0) :
    acceptWord p c w2 = (⟨true, 0, w2, []⟩, .complete [w1, w2]) := by
  simp [acceptWord, hbuf, hp, hf]

/-- Witness for C7 at a concrete context and word. -/
theorem header_only_completes_immediately_w :
    acceptWord (fun _ => true) ⟨true, 0, 0, [0]⟩ 0 =
      (⟨true, 0, 0, []⟩, .complete [0, 0]) :=
  header_only_completes_immediately (fun _ => true) ⟨true, 0, 0, [0]⟩ 0 0
    rfl rfl (by decide)

/-- C3: while locked, if the word completed by the current bit fails
parity, that word is rejected (the buffer is discarded, not appended),
the context drops to unlocked, and the resynchronization-required event
is emitted — in particular no `complete` event carries any part of the
discarded buffer. -/
theorem parity_failure_forces_resync (p : Nat → Bool) (c : RtcmCtx)
    (b : Nat) (hlock : c.locked = true) (hoff : c.curr_offset = 29)
    (hbad : p (shiftIn c.curr_word b) = false) :
    feedBit p c b = (⟨false, 0, shiftIn c.curr_word b, []⟩, .resync) := by
  simp [feedBit, hlock, hoff, acceptWord, hbad]

/-- Witness for C3 at a concrete locked context. -/
theorem parity_failure_forces_resync_w :
    feedBit (fun _ => false) ⟨true, 29, 0, [5]⟩ 0 =
      (⟨false, 0, shiftIn 0 0, []⟩, .resync) :=
  parity_failure_forces_resync (fun _ => false) ⟨true, 29, 0, [5]⟩ 0
    rfl rfl rfl

/-- C8: the payload decoder returns the unknown-type error exactly for
message types outside the protocol's defined range 1-63, and any
in-range type without implemented semantics yields the
recognized-but-unparsed raw result carrying the type and the word
buffer. -/
theorem unknown_type_only_outside_range (t : Nat) (ws : List Nat) :
    (decodePayload t ws = .unknownType ↔ (t = 0 ∨ 64 ≤ t)) ∧
    (1 ≤ t → t ≤ 63 → t ≠ 1 → t ≠ 9 →
      decodePayload t ws = .raw t ws) := by
  refine ⟨?_, ?_⟩
  · by_cases h1 : t = 1 ∨ t = 9
    · simp [decodePayload, h1]
      omega
    · by_cases h2 : 1 ≤ t ∧ t ≤ 63
      · simp [decodePayload, h1, h2]
        omega
      · simp [decodePayload, h1, h2]
        omega
  · intro ha hb hc hd
    have h1 : ¬(t = 1 ∨ t = 9) := by omega
    simp [decodePayload, h1, ha, hb]

/-- Witness for C8: type 5 is in range and unimplemented. -/
theorem unknown_type_only_outside_range_w :
    decodePayload 5 [0] = DecodeResult.raw 5 [0] :=
  (unknown_type_only_outside_range 5 [0]).2 (by decide) (by decide)
    (by decide) (by decide)

end Rtcm

namespace Rtcm

/-- `acceptWord` always resets the bit-offset to 0. -/
theorem acceptWord_offset (p : Nat → Bool) (c : RtcmCtx) (w : Nat) :
    (acceptWord p c w).1.curr_offset = 0 := by
  unfold acceptWord
  split
  · split <;> rfl
  · rfl

/-- `acceptWord` preserves the buffer invariant. -/
theorem acceptWord_bufinv (p : Nat → Bool) (c : RtcmCtx) (w : Nat)
    (h : BufInv c) : BufInv (acceptWord p c w).1 := by
  rcases h with ⟨hlen, hfit⟩
  by_cases hp : p w = true
  · by_cases hdone : 2 ≤ (c.buf ++ [w]).length ∧
        (c.buf ++ [w]).length = 2 + frmlenOf ((c.buf ++ [w]).getD 1 0)
    · unfold acceptWord
      rw [if_pos hp, if_pos hdone]
      simp [BufInv, RTCM_WORDS_MAX]
    · unfold acceptWord
      rw [if_pos hp, if_neg hdone]
      have hne : ¬((c.buf ++ [w]).length =
          2 + frmlenOf ((c.buf ++ [w]).getD 1 0)) :=
        fun he => hdone ⟨by rw [he]; omega, he⟩
      unfold BufInv RTCM_WORDS_MAX at *
      dsimp only
      rcases Nat.lt_or_ge c.buf.length 2 with hn | hn
      · rw [List.length_append, List.length_singleton] at hne ⊢
        exact ⟨by omega, fun _ => by omega⟩
      · have hg : (c.buf ++ [w]).getD 1 0 = c.buf.getD 1 0 :=
          List.getD_append _ _ _ _ (by omega)
        have hf := hfit hn
        have hb := frmlenOf_le (c.buf.getD 1 0)
        rw [List.length_append, List.length_singleton, hg] at hne ⊢
        exact ⟨by omega, fun _ => by omega⟩
  · unfold acceptWord
    rw [if_neg hp]
    simp [BufInv, RTCM_WORDS_MAX]

/-- `feedBit` preserves the full context invariant. -/
theorem feedBit_inv (p : Nat → Bool) (c : RtcmCtx) (b : Nat)
    (h : CtxInv c) : CtxInv (feedBit p c b).1 := by
  rcases h with ⟨hoff, hbuf⟩
  by_cases hl : c.locked = true
  · by_cases ho : c.curr_offset + 1 < 30
    · have hres : (feedBit p c b).1 =
          { c with curr_word := shiftIn c.curr_word b,
                   curr_offset := c.curr_offset + 1 } := by
        simp [feedBit, hl, ho]
      rw [hres]
      exact ⟨by show c.curr_offset + 1 ≤ 29; omega, hbuf⟩
    · have hres : (feedBit p c b).1 =
          (acceptWord p { c with curr_word := shiftIn c.curr_word b }
            (shiftIn c.curr_word b)).1 := by
        simp [feedBit, hl, ho]
      rw [hres]
      refine ⟨?_, acceptWord_bufinv p _ _ hbuf⟩
      rw [acceptWord_offset]
      omega
  · by_cases hs : preambleOf (shiftIn c.curr_word b) = PREAMBLE_PATTERN ∧
        p (shiftIn c.curr_word b) = true
    · have hres : (feedBit p c b).1 =
          ⟨true, 0, shiftIn c.curr_word b, [shiftIn c.curr_word b]⟩ := by
        simp [feedBit, hl, hs]
      rw [hres]
      exact ⟨by show (0 : Nat) ≤ 29; omega,
        by show (1 : Nat) ≤ RTCM_WORDS_MAX ∧ _
           refine ⟨by simp [RTCM_WORDS_MAX], ?_⟩
           intro h2
           simp at h2⟩
    · have hres : (feedBit p c b).1 =
          { c with curr_word := shiftIn c.curr_word b } := by
        simp [feedBit, hl, hs]
      rw [hres]
      exact ⟨hoff, hbuf⟩

/-- `feedBits` preserves the full context invariant. -/
theorem feedBits_inv (p : Nat → Bool) (bs : List Nat) :
    ∀ c : RtcmCtx, CtxInv c → CtxInv (feedBits p c bs) := by
  induction bs with
  | nil => intro c h; simpa [feedBits] using h
  | cons b rest ih =>
      intro c h
      have h1 := ih (feedBit p c b).1 (feedBit_inv p c b h)
      simpa [feedBits, List.foldl_cons] using h1

/-- The initial context satisfies the invariant. -/
theorem rtcm_init_inv : CtxInv rtcm_init := by
  refine ⟨by simp [rtcm_init], ⟨by simp [rtcm_init, BufInv, RTCM_WORDS_MAX], ?_⟩⟩
  intro h2
  simp [rtcm_init] at h2

/-- C9: from initialization through every subsequent per-bit decode
call, the bit-offset of the word being assembled stays within 0-29 and
the count of assembled words stays within 0-33. -/
theorem ctx_invariant_preserved (p : Nat → Bool) (bs : List Nat) :
    (feedBits p rtcm_init bs).curr_offset ≤ 29 ∧
    (feedBits p rtcm_init bs).buf.length ≤ RTCM_WORDS_MAX := by
  have h := feedBits_inv p bs rtcm_init rtcm_init_inv
  exact ⟨h.1, h.2.1⟩

end Rtcm

namespace Rtcm

/-- `feedWords` preserves the buffer invariant. -/
theorem feedWords_bufinv (p : Nat → Bool) (ws : List Nat) :
    ∀ c : RtcmCtx, BufInv c → BufInv (feedWords p c ws).1 := by
  induction ws with
  | nil => intro c h; simpa [feedWords] using h
  | cons w rest ih =>
      intro c h
      have h1 := ih (acceptWord p c w).1 (acceptWord_bufinv p c w h)
      simpa [feedWords] using h1

/-- Run lemma: from a context already holding the two header words (and
possibly more), feeding the remaining parity-valid words of the message
emits `incomplete` until the final word, which emits the complete
message, and leaves a locked, empty-buffer context. -/
theorem feedWords_run (p : Nat → Bool) :
    ∀ (r : List Nat) (c : RtcmCtx), 1 ≤ r.length → 2 ≤ c.buf.length →
      c.buf.length + r.length = 2 + frmlenOf (c.buf.getD 1 0) →
      (∀ w ∈ r, p w = true) →
      (feedWords p c r).1.locked = true ∧ (feedWords p c r).1.buf = [] ∧
      (feedWords p c r).1.curr_offset = 0 ∧
      (feedWords p c r).2 =
        List.replicate (r.length - 1) RtcmEvent.incomplete ++
          [RtcmEvent.complete (c.buf ++ r)] := by
  intro r
  induction r with
  | nil => intro c h1 _ _ _; simp at h1
  | cons w rest ih =>
      intro c _ h2 hsum hp
      have hpw : p w = true := hp w (by simp)
      cases rest with
      | nil =>
          have hg : (c.buf ++ [w]).getD 1 0 = c.buf.getD 1 0 :=
            List.getD_append _ _ _ _ (by omega)
          simp only [List.length_cons, List.length_nil] at hsum
          have hcond : 2 ≤ (c.buf ++ [w]).length ∧
              (c.buf ++ [w]).length =
                2 + frmlenOf ((c.buf ++ [w]).getD 1 0) := by
            rw [hg, List.length_append, List.length_singleton]
            exact ⟨by omega, by omega⟩
          have hstep : acceptWord p c w =
              (⟨true, 0, w, []⟩, .complete (c.buf ++ [w])) := by
            unfold acceptWord
            rw [if_pos hpw, if_pos hcond]
          refine ⟨?_, ?_, ?_, ?_⟩ <;> simp [feedWords, hstep]
      | cons w' rest' =>
          have hg : (c.buf ++ [w]).getD 1 0 = c.buf.getD 1 0 :=
            List.getD_append _ _ _ _ (by omega)
          simp only [List.length_cons] at hsum
          have hncond : ¬(2 ≤ (c.buf ++ [w]).length ∧
              (c.buf ++ [w]).length =
                2 + frmlenOf ((c.buf ++ [w]).getD 1 0)) := by
            rintro ⟨-, he⟩
            rw [hg, List.length_append, List.length_singleton] at he
            omega
          have hstep : acceptWord p c w =
              (⟨true, 0, w, c.buf ++ [w]⟩, .incomplete) := by
            unfold acceptWord
            rw [if_pos hpw, if_neg hncond]
          have ih' := ih ⟨true, 0, w, c.buf ++ [w]⟩ (by simp)
              (by simp; omega)
              (by
                dsimp only
                rw [hg, List.length_append, List.length_singleton]
                simp only [List.length_cons]
                omega)
              (fun x hx => hp x (by simp [hx]))
          rcases ih' with ⟨ha, hb, hc, hd⟩
          have hfw : feedWords p c (w :: w' :: rest') =
              ((feedWords p ⟨true, 0, w, c.buf ++ [w]⟩ (w' :: rest')).1,
                RtcmEvent.incomplete ::
                  (feedWords p ⟨true, 0, w, c.buf ++ [w]⟩
                    (w' :: rest')).2) := by
            simp [feedWords, hstep]
          refine ⟨by rw [hfw]; exact ha, by rw [hfw]; exact hb,
            by rw [hfw]; exact hc, ?_⟩
          rw [hfw]
          dsimp only
          rw [hd]
          simp [List.replicate_succ]

end Rtcm

namespace Rtcm

/-- From a locked, empty-buffer context, feeding a full message worth of
parity-valid words yields exactly one `complete` event, at the final
word, and returns to a locked, empty-buffer context. -/
theorem feedWords_complete_all (p : Nat → Bool) (c : RtcmCtx)
    (ws : List Nat) (hbuf : c.buf = [])
    (hlen : ws.length = 2 + frmlenOf (ws.getD 1 0))
    (hp : ∀ w ∈ ws, p w = true) :
    (feedWords p c ws).1.locked = true ∧ (feedWords p c ws).1.buf = [] ∧
    (feedWords p c ws).1.curr_offset = 0 ∧
    (feedWords p c ws).2 =
      List.replicate (ws.length - 1) RtcmEvent.incomplete ++
        [RtcmEvent.complete ws] := by
  cases ws with
  | nil =>
      exfalso
      simp only [List.length_nil, List.getD_nil] at hlen
      omega
  | cons w1 tail =>
    cases tail with
    | nil =>
        exfalso
        simp only [List.length_cons, List.length_nil, List.getD_cons_succ,
          List.getD_nil] at hlen
        omega
    | cons w2 rest =>
      have hp1 : p w1 = true := hp w1 (by simp)
      have hp2 : p w2 = true := hp w2 (by simp)
      have hs1 : acceptWord p c w1 = (⟨true, 0, w1, [w1]⟩, .incomplete) := by
        simp [acceptWord, hp1, hbuf]
      simp only [List.getD_cons_succ, List.getD_cons_zero,
        List.length_cons] at hlen
      cases rest with
      | nil =>
        have hf0 : frmlenOf w2 = 0 := by
          simp only [List.length_nil] at hlen
          omega
        have hs2 : acceptWord p ⟨true, 0, w1, [w1]⟩ w2 =
            (⟨true, 0, w2, []⟩, .complete [w1, w2]) := by
          simp [acceptWord, hp2, hf0]
        refine ⟨?_, ?_, ?_, ?_⟩ <;> simp [feedWords, hs1, hs2]
      | cons w3 rest' =>
        have hfpos : frmlenOf w2 ≠ 0 := by
          simp only [List.length_cons] at hlen
          omega
        have hs2 : acceptWord p ⟨true, 0, w1, [w1]⟩ w2 =
            (⟨true, 0, w2, [w1, w2]⟩, .incomplete) := by
          simp [acceptWord, hp2, hfpos]
        have hrun := feedWords_run p (w3 :: rest') ⟨true, 0, w2, [w1, w2]⟩
            (by simp) (by simp)
            (by
              dsimp only
              simp only [List.getD_cons_succ, List.getD_cons_zero,
                List.length_cons, List.length_nil, List.length_append]
              simp only [List.length_cons, List.length_nil] at hlen
              omega)
            (fun x hx => hp x (by simp [hx]))
        rcases hrun with ⟨ha, hb, hc, hd⟩
        have hfw : feedWords p c (w1 :: w2 :: w3 :: rest') =
            ((feedWords p ⟨true, 0, w2, [w1, w2]⟩ (w3 :: rest')).1,
              RtcmEvent.incomplete :: RtcmEvent.incomplete ::
                (feedWords p ⟨true, 0, w2, [w1, w2]⟩ (w3 :: rest')).2) := by
          simp [feedWords, hs1, hs2]
        refine ⟨by rw [hfw]; exact ha, by rw [hfw]; exact hb,
          by rw [hfw]; exact hc, ?_⟩
        rw [hfw]
        dsimp only
        rw [hd]
        simp [List.replicate_succ]

/-- C4: for a locked context with an empty message buffer, feeding
exactly 2 + frame-length parity-valid words (frame length read from the
second word, hence 0-31) emits no message before the final word,
exactly one complete message at the final word, and leaves the context
locked with an empty buffer. -/
theorem locked_feed_yields_one_message (p : Nat → Bool) (c : RtcmCtx)
    (ws : List Nat) (hlock : c.locked = true) (hbuf : c.buf = [])
    (hlen : ws.length = 2 + frmlenOf (ws.getD 1 0))
    (hp : ∀ w ∈ ws, p w = true) :
    (feedWords p c ws).1.locked = true ∧ (feedWords p c ws).1.buf = [] ∧
    (feedWords p c ws).2 =
      List.replicate (ws.length - 1) RtcmEvent.incomplete ++
        [RtcmEvent.complete ws] := by
  have h := feedWords_complete_all p c ws hbuf hlen hp
  exact ⟨h.1, h.2.1, h.2.2.2⟩

/-- Witness for C4: a header-only message (frame length 0). -/
theorem locked_feed_yields_one_message_w :
    (feedWords (fun _ => true) ⟨true, 0, 0, []⟩ [0, 0]).1.locked = true ∧
    (feedWords (fun _ => true) ⟨true, 0, 0, []⟩ [0, 0]).1.buf = [] ∧
    (feedWords (fun _ => true) ⟨true, 0, 0, []⟩ [0, 0]).2 =
      List.replicate 1 RtcmEvent.incomplete ++
        [RtcmEvent.complete [0, 0]] :=
  locked_feed_yields_one_message (fun _ => true) ⟨true, 0, 0, []⟩ [0, 0]
    rfl rfl (by decide) (by decide)

/-- C2: the assembler never stores more than 33 words: every
representable frame-length is at most 31 (the field is 5 bits wide, so
a value like 32 cannot even occur on the wire), every prefix of a
frame-length-31 stream keeps the buffer within 33 words, and the full
33-word stream completes exactly one message with the buffer reset. -/
theorem capacity_bound_respected (p : Nat → Bool) (c : RtcmCtx)
    (ws : List Nat) (hbuf : c.buf = []) (hlen : ws.length = 33)
    (hf : frmlenOf (ws.getD 1 0) = 31) (hp : ∀ w ∈ ws, p w = true) :
    (∀ w, frmlenOf w ≤ 31) ∧
    (∀ n, (feedWords p c (ws.take n)).1.buf.length ≤ RTCM_WORDS_MAX) ∧
    (feedWords p c ws).1.buf = [] ∧
    (feedWords p c ws).2 =
      List.replicate 32 RtcmEvent.incomplete ++
        [RtcmEvent.complete ws] := by
  have hcinv : BufInv c := by
    refine ⟨by simp [hbuf, RTCM_WORDS_MAX], fun h2 => ?_⟩
    rw [hbuf] at h2
    simp at h2
  have hall := feedWords_complete_all p c ws hbuf (by rw [hlen, hf]) hp
  refine ⟨frmlenOf_le, ?_, hall.2.1, ?_⟩
  · intro n
    exact (feedWords_bufinv p (ws.take n) c hcinv).1
  · have h4 := hall.2.2.2
    rw [hlen] at h4
    exact h4

/-- Witness for C2: a 33-word stream whose second word carries frame
length 31. -/
theorem capacity_bound_respected_w :
    (∀ w, frmlenOf w ≤ 31) ∧
    (∀ n, (feedWords (fun _ => true) ⟨true, 0, 0, []⟩
        ((0 :: (31 <<< 9) :: List.replicate 31 0).take n)).1.buf.length ≤
      RTCM_WORDS_MAX) ∧
    (feedWords (fun _ => true) ⟨true, 0, 0, []⟩
        (0 :: (31 <<< 9) :: List.replicate 31 0)).1.buf = [] ∧
    (feedWords (fun _ => true) ⟨true, 0, 0, []⟩
        (0 :: (31 <<< 9) :: List.replicate 31 0)).2 =
      List.replicate 32 RtcmEvent.incomplete ++
        [RtcmEvent.complete (0 :: (31 <<< 9) :: List.replicate 31 0)] :=
  capacity_bound_respected (fun _ => true) ⟨true, 0, 0, []⟩
    (0 :: (31 <<< 9) :: List.replicate 31 0) rfl (by decide) (by decide)
    (by decide)

end Rtcm

namespace Rtcm

/-- While no prefix of the remaining bits produces an accumulator that
matches preamble and parity, an unlocked context stays unlocked. -/
theorem never_lock_aux (p : Nat → Bool) :
    ∀ (bs : List Nat) (c : RtcmCtx), c.locked = false →
      (∀ n, n ≤ bs.length →
        ¬(preambleOf ((bs.take n).foldl shiftIn c.curr_word) =
            PREAMBLE_PATTERN ∧
          p ((bs.take n).foldl shiftIn c.curr_word) = true)) →
      (feedBits p c bs).locked = false := by
  intro bs
  induction bs with
  | nil => intro c hc _; simpa [feedBits] using hc
  | cons b rest ih =>
      intro c hc hno
      have h1 := hno 1 (by simp)
      simp only [List.take_succ_cons, List.take_zero, List.foldl_cons,
        List.foldl_nil] at h1
      have hstep : (feedBit p c b).1 =
          { c with curr_word := shiftIn c.curr_word b } := by
        simp [feedBit, hc, h1]
      have hrest : (feedBits p c (b :: rest)).locked =
          (feedBits p { c with curr_word := shiftIn c.curr_word b }
            rest).locked := by
        simp [feedBits, List.foldl_cons, hstep]
      rw [hrest]
      refine ih { c with curr_word := shiftIn c.curr_word b } hc ?_
      intro n hn
      have h2 := hno (n + 1) (by simpa using hn)
      simpa [List.take_succ_cons, List.foldl_cons] using h2

/-- C5: if no 30-bit alignment of any prefix of the bit stream matches
the fixed preamble 01100110 and passes parity, the synchronizer never
sets the lock flag. -/
theorem no_alignment_never_locks (p : Nat → Bool) (bs : List Nat)
    (h : ∀ n, n ≤ bs.length →
      ¬(preambleOf ((bs.take n).foldl shiftIn 0) = PREAMBLE_PATTERN ∧
        p ((bs.take n).foldl shiftIn 0) = true)) :
    (feedBits p rtcm_init bs).locked = false :=
  never_lock_aux p bs rtcm_init rfl h

/-- Witness for C5: a short all-ones stream with a parity check that
rejects everything. -/
theorem no_alignment_never_locks_w :
    (feedBits (fun _ => false) rtcm_init [1, 1, 1]).locked = false :=
  no_alignment_never_locks (fun _ => false) [1, 1, 1] (by decide)

end Rtcm

namespace AisJson

/-- C10 counterexample: a buffer that contains `"type":18,` but also
`"type":1,` is dispatched by the earlier type-1 test, so the type-18
schema is not selected even though the buffer contains `"type":18,`. -/
theorem ais18_selection_counterexample :
    hasType "18" "\"type\":1,\"type\":18," = true ∧
    selectBranch "\"type\":1,\"type\":18," = some AisBranch.b1 ∧
    schemaOf AisBranch.b1 ≠ AisSchema.ais18 := by
  refine ⟨by decide, by decide, by decide⟩


/-- A branch returned by `firstMatch` is the branch of some pair of the
chain. -/
theorem firstMatch_mem {br : AisBranch} :
    ∀ L : List (Bool × AisBranch), firstMatch L = some br →
      ∃ c, (c, br) ∈ L := by
  intro L
  induction L with
  | nil => intro h; simp [firstMatch] at h
  | cons p rest ih =>
      intro h
      rcases p with ⟨c, b⟩
      by_cases hc : c = true
      · simp [firstMatch, hc] at h
        exact ⟨c, by simp [h]⟩
      · simp [firstMatch, hc] at h
        rcases ih h with ⟨c', hm⟩
        exact ⟨c', by simp [hm]⟩

/-- A pair guarded by the same condition as an earlier pair is never
selected, provided its branch value labels no other pair. -/
theorem firstMatch_no_dup (y : AisBranch) :
    ∀ (L1 : List (Bool × AisBranch)) (c : Bool) (x : AisBranch)
      (L2 : List (Bool × AisBranch)),
      (∀ p ∈ L1, p.2 ≠ y) → x ≠ y → (∀ p ∈ L2, p.2 ≠ y) →
      firstMatch (L1 ++ (c, x) :: (c, y) :: L2) ≠ some y := by
  intro L1
  induction L1 with
  | nil =>
      intro c x L2 _ hxy hL2 h
      by_cases hc : c = true
      · simp [firstMatch, hc] at h
        exact hxy h
      · simp [firstMatch, hc] at h
        rcases firstMatch_mem _ h with ⟨c', hm⟩
        exact hL2 _ hm rfl
  | cons p rest ih =>
      intro c x L2 hL1 hxy hL2 h
      rcases p with ⟨c0, b0⟩
      by_cases hc : c0 = true
      · simp [firstMatch, hc] at h
        exact hL1 ⟨c0, b0⟩ (by simp) (by simp [h])
      · simp [firstMatch, hc] at h
        exact ih c x L2 (fun q hq => hL1 q (by simp [hq])) hxy hL2 h

/-- When every test before a true test is false, `firstMatch` selects
that test's branch. -/
theorem firstMatch_skip (b : AisBranch) (c : Bool) (hc : c = true) :
    ∀ (L1 L2 : List (Bool × AisBranch)),
      (∀ p ∈ L1, p.1 = false) →
      firstMatch (L1 ++ (c, b) :: L2) = some b := by
  intro L1
  induction L1 with
  | nil => intro L2 _; simp [firstMatch, hc]
  | cons p rest ih =>
      intro L2 hall
      rcases p with ⟨c0, b0⟩
      have hc0 : c0 = false := hall ⟨c0, b0⟩ (by simp)
      simp only [List.cons_append, firstMatch, hc0, Bool.false_eq_true,
        if_false]
      exact ih L2 (fun q hq => hall q (by simp [hq]))

/-- When every test is false, `firstMatch` selects nothing. -/
theorem firstMatch_none :
    ∀ L : List (Bool × AisBranch), (∀ p ∈ L, p.1 = false) →
      firstMatch L = none := by
  intro L
  induction L with
  | nil => intro _; rfl
  | cons p rest ih =>
      intro hall
      rcases p with ⟨c0, b0⟩
      have hc0 : c0 = false := hall ⟨c0, b0⟩ (by simp)
      simp only [firstMatch, hc0, Bool.false_eq_true, if_false]
      exact ih (fun q hq => hall q (by simp [hq]))

/-- C10 (amended): `json_ais_read` zeroes the output structure and
returns `JSON_ERR_MISC` with it still all-zero when none of the
recognized `"type":N,` substrings (types 1-22 and 24, 23 excluded)
occurs; the duplicate second type-18 branch is never selected for any
buffer; and a buffer containing `"type":18,` but none of the
earlier-tested type substrings selects the json_ais18 schema. -/
theorem json_ais_read_dispatch (readObj : AisBranch → AisT → Int × AisT)
    (buf : String) :
    ((∀ n ∈ aisNeedles, hasType n buf = false) →
      json_ais_read readObj buf = (JSON_ERR_MISC, zeroAis)) ∧
    selectBranch buf ≠ some AisBranch.b18dup ∧
    (hasType "18" buf = true →
      (∀ n ∈ (["1", "2", "3", "4", "11", "5", "6", "7", "13", "8", "9",
          "10", "12", "14", "15", "16", "17"] : List String),
        hasType n buf = false) →
      selectBranch buf = some AisBranch.b18) := by
  refine ⟨?_, ?_, ?_⟩
  · intro hnone
    have v1 := hnone "1" (by simp [aisNeedles])
    have v2 := hnone "2" (by simp [aisNeedles])
    have v3 := hnone "3" (by simp [aisNeedles])
    have v4 := hnone "4" (by simp [aisNeedles])
    have v11 := hnone "11" (by simp [aisNeedles])
    have v5 := hnone "5" (by simp [aisNeedles])
    have v6 := hnone "6" (by simp [aisNeedles])
    have v7 := hnone "7" (by simp [aisNeedles])
    have v13 := hnone "13" (by simp [aisNeedles])
    have v8 := hnone "8" (by simp [aisNeedles])
    have v9 := hnone "9" (by simp [aisNeedles])
    have v10 := hnone "10" (by simp [aisNeedles])
    have v12 := hnone "12" (by simp [aisNeedles])
    have v14 := hnone "14" (by simp [aisNeedles])
    have v15 := hnone "15" (by simp [aisNeedles])
    have v16 := hnone "16" (by simp [aisNeedles])
    have v17 := hnone "17" (by simp [aisNeedles])
    have v18 := hnone "18" (by simp [aisNeedles])
    have v19 := hnone "19" (by simp [aisNeedles])
    have v20 := hnone "20" (by simp [aisNeedles])
    have v21 := hnone "21" (by simp [aisNeedles])
    have v22 := hnone "22" (by simp [aisNeedles])
    have v24 := hnone "24" (by simp [aisNeedles])
    have hsel : selectBranch buf = none := by
      apply firstMatch_none
      simp [aisChain, v1, v2, v3, v4, v11, v5, v6, v7, v13, v8, v9, v10,
        v12, v14, v15, v16, v17, v18, v19, v20, v21, v22, v24]
    simp [json_ais_read, hsel]
  · show firstMatch (aisChain buf) ≠ some AisBranch.b18dup
    unfold aisChain
    exact firstMatch_no_dup AisBranch.b18dup
      [(hasType "1" buf || hasType "2" buf || hasType "3" buf, .b1),
        (hasType "4" buf || hasType "11" buf, .b4),
        (hasType "5" buf, .b5), (hasType "6" buf, .b6),
        (hasType "7" buf || hasType "13" buf, .b7),
        (hasType "8" buf, .b8), (hasType "9" buf, .b9),
        (hasType "10" buf, .b10), (hasType "12" buf, .b12),
        (hasType "14" buf, .b14), (hasType "15" buf, .b15),
        (hasType "16" buf, .b16), (hasType "17" buf, .b17)]
      (hasType "18" buf) AisBranch.b18
      [(hasType "19" buf, .b19), (hasType "20" buf, .b20),
        (hasType "21" buf, .b21), (hasType "22" buf, .b22),
        (hasType "24" buf, .b24)]
      (by simp) (by simp) (by simp)
  · intro h18 hearly
    have v1 := hearly "1" (by simp)
    have v2 := hearly "2" (by simp)
    have v3 := hearly "3" (by simp)
    have v4 := hearly "4" (by simp)
    have v11 := hearly "11" (by simp)
    have v5 := hearly "5" (by simp)
    have v6 := hearly "6" (by simp)
    have v7 := hearly "7" (by simp)
    have v13 := hearly "13" (by simp)
    have v8 := hearly "8" (by simp)
    have v9 := hearly "9" (by simp)
    have v10 := hearly "10" (by simp)
    have v12 := hearly "12" (by simp)
    have v14 := hearly "14" (by simp)
    have v15 := hearly "15" (by simp)
    have v16 := hearly "16" (by simp)
    have v17 := hearly "17" (by simp)
    show firstMatch (aisChain buf) = some AisBranch.b18
    unfold aisChain
    refine firstMatch_skip AisBranch.b18 (hasType "18" buf) h18
      [(hasType "1" buf || hasType "2" buf || hasType "3" buf, .b1),
        (hasType "4" buf || hasType "11" buf, .b4),
        (hasType "5" buf, .b5), (hasType "6" buf, .b6),
        (hasType "7" buf || hasType "13" buf, .b7),
        (hasType "8" buf, .b8), (hasType "9" buf, .b9),
        (hasType "10" buf, .b10), (hasType "12" buf, .b12),
        (hasType "14" buf, .b14), (hasType "15" buf, .b15),
        (hasType "16" buf, .b16), (hasType "17" buf, .b17)]
      [(hasType "18" buf, .b18dup),
        (hasType "19" buf, .b19), (hasType "20" buf, .b20),
        (hasType "21" buf, .b21), (hasType "22" buf, .b22),
        (hasType "24" buf, .b24)]
      ?_
    simp [v1, v2, v3, v4, v11, v5, v6, v7, v13, v8, v9, v10, v12, v14,
      v15, v16, v17]

/-- Witness for C10: a no-match buffer yields `JSON_ERR_MISC` with the
all-zero structure, and a clean type-18 report selects json_ais18. -/
theorem json_ais_read_dispatch_w :
    json_ais_read (fun _ a => (0, a)) "x" = (JSON_ERR_MISC, zeroAis) ∧
    selectBranch "\"type\":18,\"x\":1" = some AisBranch.b18 :=
  ⟨(json_ais_read_dispatch (fun _ a => (0, a)) "x").1 (by decide),
    (json_ais_read_dispatch (fun _ a => (0, a)) "\"type\":18,\"x\":1").2.2
      (by decide) (by decide)⟩

end AisJson
